import Mathlib

/-!
Shallow embedding of the word-to-json-converter repository
(src/convert_docx_to_json.py and src/streamlit_app.py).

Text is modelled as `List Char` (a Python `str`).  Python dictionaries
are modelled as insertion-ordered association lists: updating an
existing key keeps its position, a fresh key is appended at the end,
exactly as CPython dicts behave.  The paragraph sequence of a document
is a `List (List Char)` (the `para.text` of each paragraph in order).
`datetime.now().isoformat()` is passed in as an explicit `now` string.
-/

set_option autoImplicit false

/-- Python `str.strip()`: drop leading and trailing whitespace.
(The sources only ever meet ASCII whitespace, modelled by
`Char.isWhitespace`.) -/
def pyStrip (cs : List Char) : List Char :=
  ((cs.dropWhile Char.isWhitespace).reverse.dropWhile Char.isWhitespace).reverse

/-- Python `line.split(":", 1)` on a line that contains a colon:
split at the FIRST `':'`; the first component is everything before it,
the second everything after it.  (On a colon-free list it returns the
whole list paired with `[]`; the sources only call it under an
`":" in line` guard.) -/
def splitFirstColon : List Char → List Char × List Char
  | [] => ([], [])
  | c :: cs =>
      if c = ':' then ([], cs)
      else
        let p := splitFirstColon cs
        (c :: p.1, p.2)

/-- A value stored in the `content` dict of a record: Python puts
plain strings under key-value keys and a list of strings under the
reserved `free_text` key. -/
inductive Value where
  | str (s : List Char)
  | arr (l : List (List Char))
deriving DecidableEq, Repr

/-- A value stored in the `metadata` dict: a string or an integer. -/
inductive MetaVal where
  | str (s : List Char)
  | nat (n : Nat)
deriving DecidableEq, Repr

/-- A Python dict with string keys, as an insertion-ordered
association list. -/
abbrev Dict (α : Type) := List (List Char × α)

/-- Python `d[k] = v`: overwrite in place if the key exists, else
append at the end (CPython insertion-order semantics). -/
def dictSet {α : Type} : Dict α → List Char → α → Dict α
  | [], k, v => [(k, v)]
  | (k2, v2) :: rest, k, v =>
      if k2 = k then (k, v) :: rest else (k2, v2) :: dictSet rest k v

/-- Python `d.get(k)` / `k in d` combined: the stored value, if any. -/
def dictGet {α : Type} : Dict α → List Char → Option α
  | [], _ => none
  | (k2, v2) :: rest, k => if k2 = k then some v2 else dictGet rest k

/-- The one runtime exception the parsing loop can raise:
`"free_text"` holds a `str` (set by a key-value line) and the code
calls `.append` on it — `AttributeError` in Python. -/
inductive PyErr where
  | attrError
deriving DecidableEq, Repr

instance {ε α : Type} [DecidableEq ε] [DecidableEq α] : DecidableEq (Except ε α) := fun a b =>
  match a, b with
  | .error e1, .error e2 =>
      if h : e1 = e2 then isTrue (h ▸ rfl) else isFalse (fun hh => h (by cases hh; rfl))
  | .ok v1, .ok v2 =>
      if h : v1 = v2 then isTrue (h ▸ rfl) else isFalse (fun hh => h (by cases hh; rfl))
  | .error _, .ok _ => isFalse (fun hh => by cases hh)
  | .ok _, .error _ => isFalse (fun hh => by cases hh)

def freeTextKey : List Char := "free_text".data

/-- One iteration of the paragraph loop shared by both
`parse_doc_to_dict` implementations (convert_docx_to_json.py lines
33-44, streamlit_app.py lines 63-77): strip the line; blank lines are
skipped; a line with a `':'` is split at the first colon into a
trimmed key and trimmed value; any other line is appended to
`content["free_text"]`, creating the list on first use.  The returned
`Bool` records whether the line was non-blank (streamlit's
`paragraph_count += 1`; the CLI script ignores it). -/
def procLine (content : Dict Value) (raw : List Char) :
    Except PyErr (Dict Value × Bool) :=
  let line := pyStrip raw
  if line = [] then .ok (content, false)
  else if line.contains ':' then
    let kv := splitFirstColon line
    .ok (dictSet content (pyStrip kv.1) (.str (pyStrip kv.2)), true)
  else
    match dictGet content freeTextKey with
    | none => .ok (dictSet content freeTextKey (.arr [line]), true)
    | some (.arr l) => .ok (dictSet content freeTextKey (.arr (l ++ [line])), true)
    | some (.str _) => .error .attrError

/-- The paragraph loop: fold `procLine` over the paragraphs, counting
the non-blank ones. -/
def parseParasAux : List (List Char) → Dict Value → Nat →
    Except PyErr (Dict Value × Nat)
  | [], content, cnt => .ok (content, cnt)
  | raw :: rest, content, cnt =>
      match procLine content raw with
      | .error e => .error e
      | .ok (c2, counted) =>
          parseParasAux rest c2 (if counted then cnt + 1 else cnt)

def parseParas (paras : List (List Char)) : Except PyErr (Dict Value × Nat) :=
  parseParasAux paras [] 0

/-- Python `os.path.basename` on a POSIX path: the component after the
last `'/'`. -/
def basename (cs : List Char) : List Char :=
  (cs.reverse.takeWhile (fun c => c ≠ '/')).reverse

/-- Python `s.replace(pat, rep)`: replace every non-overlapping
occurrence of `pat`, scanning left to right.  (For an empty pattern
Python interleaves `rep` everywhere; the sources only pass the
non-empty pattern `".docx"`, so the empty-pattern case is left as the
identity.) -/
def pyReplaceFuel (pat rep : List Char) : Nat → List Char → List Char
  | _, [] => []
  | 0, cs => cs
  | fuel + 1, c :: cs =>
      if pat.isPrefixOf (c :: cs) ∧ pat ≠ [] then
        rep ++ pyReplaceFuel pat rep fuel (cs.drop (pat.length - 1))
      else
        c :: pyReplaceFuel pat rep fuel cs

def pyReplace (pat rep cs : List Char) : List Char :=
  pyReplaceFuel pat rep cs.length cs


/-- Python `os.path.splitext` restricted to a bare filename (no path
separator): split at the last `'.'`, provided some earlier character
of the name is not a dot (leading dots are not an extension
separator); otherwise the extension is empty. -/
def splitLastDot : List Char → Option (List Char × List Char)
  | [] => none
  | c :: cs =>
      match splitLastDot cs with
      | some p => some (c :: p.1, p.2)
      | none => if c = '.' then some ([], c :: cs) else none

def splitext (cs : List Char) : List Char × List Char :=
  match splitLastDot cs with
  | none => (cs, [])
  | some p => if p.1.any (fun c => c ≠ '.') then p else (cs, [])

namespace ConvertDocx

/-!
Embedding of src/convert_docx_to_json.py (`WordToJsonConverter`).
A document on disk is modelled as `Option (List (List Char))`: the
paragraph texts that `Document(doc_path)` yields, or `none` when
opening/reading the file raises (the `except` branch).
-/

/-- The parsed record: `{"metadata": {...}, "content": {...}}`. -/
structure CliData where
  metadata : Dict MetaVal
  content : Dict Value
deriving DecidableEq, Repr

/-- `WordToJsonConverter.parse_doc_to_dict` (convert_docx_to_json.py
lines 13-50).  Lock files (`basename` starting `"~$"`) return `None`
before anything is read; a read error or an in-loop exception also
returns `None`; otherwise metadata holds `source_file`,
`converted_at` and `total_paragraphs` (the raw paragraph count,
blanks included) — and no non-empty-paragraph counter. -/
def parse_doc_to_dict (doc_path : List Char) (doc : Option (List (List Char)))
    (now : List Char) : Option CliData :=
  if "~$".data.isPrefixOf (basename doc_path) then none
  else
    match doc with
    | none => none
    | some paras =>
        match parseParas paras with
        | .error _ => none
        | .ok (content, _) =>
            some { metadata :=
                     [("source_file".data, .str (basename doc_path)),
                      ("converted_at".data, .str now),
                      ("total_paragraphs".data, .nat paras.length)],
                   content := content }

/-- `WordToJsonConverter.convert_single_file` (lines 52-62).  The
result is the returned output path (or `none`) paired with the list of
JSON writes performed. -/
def convert_single_file (input_path : List Char) (output_path : Option (List Char))
    (doc : Option (List (List Char))) (now : List Char) :
    Option (List Char) × List (List Char × CliData) :=
  let out := match output_path with
             | none => pyReplace ".docx".data ".json".data input_path
             | some p => p
  match parse_doc_to_dict input_path doc now with
  | some data => (some out, [(out, data)])
  | none => (none, [])

/-- One file met by `os.walk`: its directory path relative to the
source root (as components) and its name, plus the document its path
holds (`none` when reading it raises). `os.walk` filenames contain no
path separator, so the file's own name is its basename. -/
structure BatchFile where
  relDir : List (List Char)
  filename : List Char
  doc : Option (List (List Char))
deriving DecidableEq, Repr

/-- An output location under the destination root: the mirrored
relative directory and the output filename. -/
structure OutPath where
  relDir : List (List Char)
  filename : List Char
deriving DecidableEq, Repr

/-- The output a batch file produces, if any: only names ending in
`".docx"` are visited; a visited file whose parse succeeds is written
to the mirrored directory under the stem (`os.path.splitext`) plus
`".json"`. -/
def batchOutcome (now : List Char) (f : BatchFile) : Option (OutPath × CliData) :=
  if ".docx".data.isSuffixOf f.filename then
    match parse_doc_to_dict f.filename f.doc now with
    | none => none
    | some data =>
        some ({ relDir := f.relDir,
                filename := (splitext f.filename).1 ++ ".json".data }, data)
  else none

/-- `WordToJsonConverter.convert_folder` (lines 64-98): walk the tree,
convert each `.docx`, skip failures, collect the written JSON paths.
The result is `converted_files` paired with the list of writes. -/
def convert_folder (files : List BatchFile) (now : List Char) :
    List OutPath × List (OutPath × CliData) :=
  files.foldl
    (fun acc f =>
      match batchOutcome now f with
      | none => acc
      | some (out, data) => (acc.1 ++ [out], acc.2 ++ [(out, data)]))
    ([], [])

end ConvertDocx

namespace StreamlitApp

/-!
Embedding of src/streamlit_app.py (`WordToJsonConverter`).  An
uploaded file is a named byte buffer; what the code observes of the
bytes is whether `zipfile.ZipFile` accepts them, the entry name list
when it does, and the paragraph texts `Document` then yields.
-/

/-- What `validate_docx_file` and `Document` see of an uploaded byte
buffer: either not a valid ZIP archive, or an archive with its entry
names and the paragraph texts of the contained document. -/
inductive ZipSource where
  | badZip
  | goodZip (entries : List (List Char)) (paras : List (List Char))
deriving DecidableEq, Repr

structure UploadFile where
  name : List Char
  source : ZipSource
deriving DecidableEq, Repr

/-- The calls to `st.error` / `st.warning` the parser makes, in
order. -/
inductive AppMsg where
  | validationError (name msg : List Char)
  | processingError (name : List Char)
  | emptyWarning (name : List Char)
deriving DecidableEq, Repr

/-- `WordToJsonConverter.validate_docx_file` (streamlit_app.py lines
14-38): a non-ZIP buffer is rejected with the BadZipFile message;
otherwise the required entries `word/document.xml` and
`[Content_Types].xml` are checked in that order and the first missing
one is named in the message. -/
def validate_docx_file (f : UploadFile) : Bool × List Char :=
  match f.source with
  | .badZip => (false, "File is not a valid ZIP/DOCX file".data)
  | .goodZip entries _ =>
      if ¬ entries.contains "word/document.xml".data then
        (false, "Missing required file: word/document.xml".data)
      else if ¬ entries.contains "[Content_Types].xml".data then
        (false, "Missing required file: [Content_Types].xml".data)
      else
        (true, "Valid DOCX file".data)

/-- The parsed record of the streamlit parser. -/
structure AppData where
  metadata : Dict MetaVal
  content : Dict Value
deriving DecidableEq, Repr

/-- `WordToJsonConverter.parse_doc_to_dict` (streamlit_app.py lines
40-89): validate first (invalid → `st.error`, return `None`); run the
paragraph loop counting non-blank lines; append
`content_paragraphs` to the metadata; warn when `content` is empty;
an exception in the loop is caught and reported, returning `None`. -/
def parse_doc_to_dict (f : UploadFile) (now : List Char) :
    Option AppData × List AppMsg :=
  let v := validate_docx_file f
  if v.1 = false then (none, [.validationError f.name v.2])
  else
    match f.source with
    | .badZip => (none, [.processingError f.name])
    | .goodZip _ paras =>
        match parseParas paras with
        | .error _ => (none, [.processingError f.name])
        | .ok (content, cnt) =>
            let meta := dictSet
              [("source_file".data, MetaVal.str f.name),
               ("converted_at".data, MetaVal.str now),
               ("total_paragraphs".data, MetaVal.nat paras.length)]
              "content_paragraphs".data (MetaVal.nat cnt)
            (some { metadata := meta, content := content },
             if content = [] then [.emptyWarning f.name] else [])

end StreamlitApp

/-! ### Helper lemmas about the dict and the paragraph loop -/

theorem dictSet_ne_nil {α : Type} (d : Dict α) (k : List Char) (v : α) :
    dictSet d k v ≠ [] := by
  cases d with
  | nil => simp [dictSet]
  | cons p rest =>
      simp only [dictSet]
      split <;> simp

theorem dictGet_dictSet_self {α : Type} (d : Dict α) (k : List Char) (v : α) :
    dictGet (dictSet d k v) k = some v := by
  induction d with
  | nil => simp [dictSet, dictGet]
  | cons p rest ih =>
      obtain ⟨k2, v2⟩ := p
      simp only [dictSet]
      split
      · simp [dictGet]
      · simp [dictGet, *]

theorem dictGet_dictSet_ne {α : Type} (d : Dict α) (k k' : List Char) (v : α)
    (h : k' ≠ k) : dictGet (dictSet d k v) k' = dictGet d k' := by
  induction d with
  | nil =>
      simp only [dictSet, dictGet]
      rw [if_neg (fun hh => h hh.symm)]
  | cons p rest ih =>
      obtain ⟨k2, v2⟩ := p
      simp only [dictSet]
      split
      · rename_i hk
        subst hk
        simp only [dictGet]
        rw [if_neg (fun hh => h hh.symm), if_neg (fun hh => h hh.symm)]
      · simp only [dictGet, ih]

theorem splitFirstColon_append (a b : List Char) (h : a.contains ':' = false) :
    splitFirstColon (a ++ ':' :: b) = (a, b) := by
  induction a with
  | nil => simp [splitFirstColon]
  | cons c a ih =>
      rw [List.contains_cons, Bool.or_eq_false_iff] at h
      have hc : ¬ c = ':' := by
        intro hh
        subst hh
        simp at h
      have ih2 := ih h.2
      simp only [List.cons_append, splitFirstColon, if_neg hc, List.append_eq, ih2]

theorem contains_colon_append (a b : List Char) :
    (a ++ ':' :: b).contains ':' = true := by
  induction a with
  | nil => simp [List.contains_cons]
  | cons c a ih => simp [List.contains_cons, ih]

theorem procLine_blank (c : Dict Value) (raw : List Char)
    (h : pyStrip raw = []) : procLine c raw = .ok (c, false) := by
  simp [procLine, h]

theorem procLine_keyvalue (c : Dict Value) (raw a b : List Char)
    (h1 : pyStrip raw = a ++ ':' :: b) (h2 : a.contains ':' = false) :
    procLine c raw = .ok (dictSet c (pyStrip a) (.str (pyStrip b)), true) := by
  simp only [procLine, h1]
  rw [if_neg (by simp), if_pos (contains_colon_append a b),
      splitFirstColon_append a b h2]

theorem procLine_freetext_new (c : Dict Value) (raw : List Char)
    (h1 : pyStrip raw ≠ []) (h2 : (pyStrip raw).contains ':' = false)
    (h3 : dictGet c freeTextKey = none) :
    procLine c raw = .ok (dictSet c freeTextKey (.arr [pyStrip raw]), true) := by
  have h2' : ¬ ((pyStrip raw).contains ':' = true) := by rw [h2]; simp
  simp only [procLine]
  rw [if_neg h1, if_neg h2', h3]

theorem procLine_freetext_app (c : Dict Value) (raw : List Char)
    (l : List (List Char))
    (h1 : pyStrip raw ≠ []) (h2 : (pyStrip raw).contains ':' = false)
    (h3 : dictGet c freeTextKey = some (.arr l)) :
    procLine c raw = .ok (dictSet c freeTextKey (.arr (l ++ [pyStrip raw])), true) := by
  have h2' : ¬ ((pyStrip raw).contains ':' = true) := by rw [h2]; simp
  simp only [procLine]
  rw [if_neg h1, if_neg h2', h3]

theorem procLine_freetext_err (c : Dict Value) (raw : List Char) (s : List Char)
    (h1 : pyStrip raw ≠ []) (h2 : (pyStrip raw).contains ':' = false)
    (h3 : dictGet c freeTextKey = some (.str s)) :
    procLine c raw = .error .attrError := by
  have h2' : ¬ ((pyStrip raw).contains ':' = true) := by rw [h2]; simp
  simp only [procLine]
  rw [if_neg h1, if_neg h2', h3]

theorem procLine_counted (c c2 : Dict Value) (raw : List Char) (b : Bool)
    (h : procLine c raw = .ok (c2, b)) : (b = true ↔ pyStrip raw ≠ []) := by
  by_cases hb : pyStrip raw = []
  · rw [procLine_blank c raw hb] at h
    simp only [Except.ok.injEq, Prod.mk.injEq] at h
    simp [← h.2, hb]
  · simp only [procLine, if_neg hb] at h
    constructor
    · intro _; exact hb
    · intro _
      split at h
      · simp only [Except.ok.injEq, Prod.mk.injEq] at h
        exact h.2.symm
      · split at h
        · simp only [Except.ok.injEq, Prod.mk.injEq] at h
          exact h.2.symm
        · simp only [Except.ok.injEq, Prod.mk.injEq] at h
          exact h.2.symm
        · cases h

theorem procLine_empty_iff (c c2 : Dict Value) (raw : List Char) (b : Bool)
    (h : procLine c raw = .ok (c2, b)) :
    (c2 = [] ↔ (c = [] ∧ pyStrip raw = [])) := by
  by_cases hb : pyStrip raw = []
  · rw [procLine_blank c raw hb] at h
    simp only [Except.ok.injEq, Prod.mk.injEq] at h
    simp [← h.1, hb]
  · simp only [procLine, if_neg hb] at h
    split at h
    · simp only [Except.ok.injEq, Prod.mk.injEq] at h
      simp [← h.1, dictSet_ne_nil, hb]
    · split at h
      · simp only [Except.ok.injEq, Prod.mk.injEq] at h
        simp [← h.1, dictSet_ne_nil, hb]
      · simp only [Except.ok.injEq, Prod.mk.injEq] at h
        simp [← h.1, dictSet_ne_nil, hb]
      · cases h

/-- The non-blank lines of a paragraph list. -/
def nonBlankCount (paras : List (List Char)) : Nat :=
  (paras.filter (fun p => ! (pyStrip p).isEmpty)).length

theorem parseParasAux_count (paras : List (List Char)) :
    ∀ (c0 : Dict Value) (n0 : Nat) (c : Dict Value) (n : Nat),
    parseParasAux paras c0 n0 = .ok (c, n) → n = n0 + nonBlankCount paras := by
  induction paras with
  | nil =>
      intro c0 n0 c n h
      simp only [parseParasAux, Except.ok.injEq, Prod.mk.injEq] at h
      simp [nonBlankCount, ← h.2]
  | cons raw rest ih =>
      intro c0 n0 c n h
      simp only [parseParasAux] at h
      cases hp : procLine c0 raw with
      | error e => rw [hp] at h; cases h
      | ok p =>
          obtain ⟨c2, counted⟩ := p
          rw [hp] at h
          have hcount := procLine_counted c0 c2 raw counted hp
          have hn := ih c2 _ c n h
          by_cases hb : pyStrip raw = []
          · have hcf : counted = false := by
              cases counted
              · rfl
              · exact absurd (hcount.1 rfl) (by simp [hb])
            subst hcf
            simp only [Bool.false_eq_true, if_false] at hn
            have hfil : nonBlankCount (raw :: rest) = nonBlankCount rest := by
              simp [nonBlankCount, List.filter_cons, hb]
            omega
          · have hct : counted = true := hcount.2 hb
            subst hct
            simp only [if_true] at hn
            have hfil : nonBlankCount (raw :: rest) = nonBlankCount rest + 1 := by
              simp only [nonBlankCount, List.filter_cons]
              rw [if_pos (by simp [hb])]
              simp [Nat.add_comm]
            omega

theorem parseParasAux_empty_iff (paras : List (List Char)) :
    ∀ (c0 : Dict Value) (n0 : Nat) (c : Dict Value) (n : Nat),
    parseParasAux paras c0 n0 = .ok (c, n) →
    (c = [] ↔ (c0 = [] ∧ ∀ p ∈ paras, pyStrip p = [])) := by
  induction paras with
  | nil =>
      intro c0 n0 c n h
      simp only [parseParasAux, Except.ok.injEq, Prod.mk.injEq] at h
      simp [← h.1]
  | cons raw rest ih =>
      intro c0 n0 c n h
      simp only [parseParasAux] at h
      cases hp : procLine c0 raw with
      | error e => rw [hp] at h; cases h
      | ok p =>
          obtain ⟨c2, counted⟩ := p
          rw [hp] at h
          have h2 := procLine_empty_iff c0 c2 raw counted hp
          have h3 := ih c2 _ c n h
          rw [h3, h2]
          constructor
          · rintro ⟨⟨hc0, hraw⟩, hrest⟩
            refine ⟨hc0, ?_⟩
            intro p hp2
            rcases List.mem_cons.mp hp2 with h4 | h4
            · rw [h4]; exact hraw
            · exact hrest p h4
          · rintro ⟨hc0, hall⟩
            exact ⟨⟨hc0, hall raw (by simp)⟩,
              fun p hp2 => hall p (List.mem_cons_of_mem _ hp2)⟩

theorem splitLastDot_stem_docx (stem : List Char) :
    splitLastDot (stem ++ ".docx".data) = some (stem, ".docx".data) := by
  induction stem with
  | nil => decide
  | cons c stem ih =>
      rw [List.cons_append]
      unfold splitLastDot
      rw [ih]

theorem splitext_stem_docx (stem : List Char)
    (h : stem.any (fun c => c ≠ '.') = true) :
    splitext (stem ++ ".docx".data) = (stem, ".docx".data) := by
  unfold splitext
  rw [splitLastDot_stem_docx]
  dsimp only
  rw [if_pos h]

theorem ConvertDocx.convert_folder_foldl
    (files : List ConvertDocx.BatchFile) (now : List Char) :
    ∀ (a1 : List ConvertDocx.OutPath)
      (a2 : List (ConvertDocx.OutPath × ConvertDocx.CliData)),
    files.foldl
      (fun acc f =>
        match ConvertDocx.batchOutcome now f with
        | none => acc
        | some (out, data) => (acc.1 ++ [out], acc.2 ++ [(out, data)]))
      (a1, a2) =
    (a1 ++ files.filterMap (fun f => (ConvertDocx.batchOutcome now f).map Prod.fst),
     a2 ++ files.filterMap (ConvertDocx.batchOutcome now)) := by
  induction files with
  | nil => intro a1 a2; simp
  | cons f rest ih =>
      intro a1 a2
      simp only [List.foldl_cons, List.filterMap_cons]
      cases hf : ConvertDocx.batchOutcome now f with
      | none => simp [ih]
      | some p =>
          obtain ⟨out, data⟩ := p
          simp [ih, List.append_assoc]

theorem ConvertDocx.convert_folder_eq
    (files : List ConvertDocx.BatchFile) (now : List Char) :
    ConvertDocx.convert_folder files now =
    (files.filterMap (fun f => (ConvertDocx.batchOutcome now f).map Prod.fst),
     files.filterMap (ConvertDocx.batchOutcome now)) := by
  simpa using ConvertDocx.convert_folder_foldl files now [] []

theorem ConvertDocx.batchOutcome_none_of_parse_none
    (now : List Char) (f : ConvertDocx.BatchFile)
    (h : ConvertDocx.parse_doc_to_dict f.filename f.doc now = none) :
    ConvertDocx.batchOutcome now f = none := by
  simp only [ConvertDocx.batchOutcome, h]
  split <;> rfl

theorem ConvertDocx.convert_folder_skip
    (pre suf : List ConvertDocx.BatchFile) (bad : ConvertDocx.BatchFile)
    (now : List Char)
    (h : ConvertDocx.batchOutcome now bad = none) :
    ConvertDocx.convert_folder (pre ++ bad :: suf) now =
    ConvertDocx.convert_folder (pre ++ suf) now := by
  rw [ConvertDocx.convert_folder_eq, ConvertDocx.convert_folder_eq]
  simp [List.filterMap_append, List.filterMap_cons, h]

theorem ConvertDocx.parse_lock_none
    (doc_path : List Char) (doc : Option (List (List Char))) (now : List Char)
    (h : "~$".data.isPrefixOf (basename doc_path) = true) :
    ConvertDocx.parse_doc_to_dict doc_path doc now = none := by
  simp [ConvertDocx.parse_doc_to_dict, h]

theorem parseParasAux_all_blank (paras : List (List Char)) :
    ∀ (c0 : Dict Value) (n0 : Nat), (∀ p ∈ paras, pyStrip p = []) →
    parseParasAux paras c0 n0 = .ok (c0, n0) := by
  induction paras with
  | nil => intro c0 n0 _; rfl
  | cons raw rest ih =>
      intro c0 n0 hall
      have hb : pyStrip raw = [] := hall raw (by simp)
      simp only [parseParasAux, procLine_blank c0 raw hb]
      simpa using ih c0 n0 (fun p hp => hall p (List.mem_cons_of_mem _ hp))

/-! ### Claims -/

/-- C1: every raw paragraph line that trims to a non-empty line
containing a ':' is split at the FIRST colon only: the key is the
trimmed text left of that colon and the value the trimmed remainder
(which may itself contain further colons); in particular
"Note: call at 9:30" yields key "Note" and value "call at 9:30". -/
theorem claim_c1_split_first_colon :
    (∀ (content : Dict Value) (raw a b : List Char),
      pyStrip raw = a ++ ':' :: b → a.contains ':' = false →
      procLine content raw =
        .ok (dictSet content (pyStrip a) (.str (pyStrip b)), true)) ∧
    procLine [] "Note: call at 9:30".data =
      .ok ([("Note".data, .str "call at 9:30".data)], true) := by
  refine ⟨procLine_keyvalue, ?_⟩
  decide

/-- Witness for C1 at the line "Note: call at 9:30". -/
theorem claim_c1_witness :
    pyStrip "Note: call at 9:30".data = "Note".data ++ ':' :: " call at 9:30".data ∧
    ("Note".data).contains ':' = false ∧
    procLine [] "Note: call at 9:30".data =
      .ok (dictSet [] (pyStrip "Note".data) (.str (pyStrip " call at 9:30".data)), true) :=
  ⟨by decide, by decide,
   claim_c1_split_first_colon.1 [] "Note: call at 9:30".data "Note".data
     " call at 9:30".data (by decide) (by decide)⟩

/-- C2: the document ["Name: John Doe", "", "Age: 30", "likes hiking"]
parses to content Name ↦ John Doe, Age ↦ 30, free_text = [likes hiking]
with metadata total_paragraphs = 4: the blank paragraph is skipped,
key-value lines are stored under their keys, and every colon-free
non-blank line is appended to the free_text sequence in encountered
order. -/
theorem claim_c2_scenario :
    (∀ now : List Char,
      ConvertDocx.parse_doc_to_dict "doc.docx".data
        (some ["Name: John Doe".data, "".data, "Age: 30".data,
               "likes hiking".data]) now =
      some { metadata :=
               [("source_file".data, .str "doc.docx".data),
                ("converted_at".data, .str now),
                ("total_paragraphs".data, .nat 4)],
             content :=
               [("Name".data, .str "John Doe".data),
                ("Age".data, .str "30".data),
                ("free_text".data, .arr ["likes hiking".data])] }) ∧
    (∀ (content : Dict Value) (raw : List Char) (l : List (List Char)),
      pyStrip raw ≠ [] → (pyStrip raw).contains ':' = false →
      dictGet content freeTextKey = some (.arr l) →
      procLine content raw =
        .ok (dictSet content freeTextKey (.arr (l ++ [pyStrip raw])), true)) := by
  refine ⟨fun now => rfl, procLine_freetext_app⟩

/-- Witness for C2's free-text accumulation clause: a second colon-free
line is appended behind an existing free_text entry. -/
theorem claim_c2_witness :
    procLine [(freeTextKey, Value.arr ["first".data])] "second".data =
      .ok ([(freeTextKey, Value.arr ["first".data, "second".data])], true) := by
  have h := claim_c2_scenario.2 [(freeTextKey, Value.arr ["first".data])]
    "second".data ["first".data] (by decide) (by decide) (by decide)
  exact h.trans (by decide)

/-- C3: a batch source file whose basename begins with "~$" is skipped:
no Record is produced, and the whole batch result (converted paths and
writes) is the same as if the file were absent — so it appears in no
success list and is not counted as a failure. -/
theorem claim_c3_lockfile_skip
    (pre suf : List ConvertDocx.BatchFile) (lock : ConvertDocx.BatchFile)
    (now : List Char)
    (h : "~$".data.isPrefixOf (basename lock.filename) = true) :
    ConvertDocx.parse_doc_to_dict lock.filename lock.doc now = none ∧
    ConvertDocx.convert_folder (pre ++ lock :: suf) now =
      ConvertDocx.convert_folder (pre ++ suf) now := by
  have hp := ConvertDocx.parse_lock_none lock.filename lock.doc now h
  exact ⟨hp, ConvertDocx.convert_folder_skip pre suf lock now
    (ConvertDocx.batchOutcome_none_of_parse_none now lock hp)⟩

/-- Witness for C3 at the file "~$draft.docx". -/
theorem claim_c3_witness :
    ConvertDocx.parse_doc_to_dict "~$draft.docx".data (some []) [] = none ∧
    ConvertDocx.convert_folder
        ([] ++ ⟨[], "~$draft.docx".data, some []⟩ :: []) [] =
      ConvertDocx.convert_folder ([] ++ []) [] :=
  claim_c3_lockfile_skip [] [] ⟨[], "~$draft.docx".data, some []⟩ [] (by decide)

/-- C4: the streamlit Reader validates before structural parsing: a
buffer that is not a well-formed ZIP package, or one lacking
word/document.xml or lacking [Content_Types].xml, fails validation
with a message naming the problem (the specific missing entry when one
is missing), and parse_doc_to_dict produces no Record for it. -/
theorem claim_c4_validation (f : StreamlitApp.UploadFile) (now : List Char) :
    (f.source = .badZip →
      StreamlitApp.validate_docx_file f =
        (false, "File is not a valid ZIP/DOCX file".data) ∧
      (StreamlitApp.parse_doc_to_dict f now).1 = none) ∧
    (∀ entries paras, f.source = .goodZip entries paras →
      entries.contains "word/document.xml".data = false →
      StreamlitApp.validate_docx_file f =
        (false, "Missing required file: word/document.xml".data) ∧
      (StreamlitApp.parse_doc_to_dict f now).1 = none) ∧
    (∀ entries paras, f.source = .goodZip entries paras →
      entries.contains "word/document.xml".data = true →
      entries.contains "[Content_Types].xml".data = false →
      StreamlitApp.validate_docx_file f =
        (false, "Missing required file: [Content_Types].xml".data) ∧
      (StreamlitApp.parse_doc_to_dict f now).1 = none) := by
  refine ⟨?_, ?_, ?_⟩
  · intro hs
    have hv : StreamlitApp.validate_docx_file f =
        (false, "File is not a valid ZIP/DOCX file".data) := by
      simp [StreamlitApp.validate_docx_file, hs]
    exact ⟨hv, by simp [StreamlitApp.parse_doc_to_dict, hv]⟩
  · intro entries paras hs hm
    have hm' : "word/document.xml".data ∉ entries := by simp at hm; exact hm
    have hv : StreamlitApp.validate_docx_file f =
        (false, "Missing required file: word/document.xml".data) := by
      simp [StreamlitApp.validate_docx_file, hs, hm']
    exact ⟨hv, by simp [StreamlitApp.parse_doc_to_dict, hv]⟩
  · intro entries paras hs hm1 hm2
    have hm1' : "word/document.xml".data ∈ entries := by simp at hm1; exact hm1
    have hm2' : "[Content_Types].xml".data ∉ entries := by simp at hm2; exact hm2
    have hv : StreamlitApp.validate_docx_file f =
        (false, "Missing required file: [Content_Types].xml".data) := by
      simp [StreamlitApp.validate_docx_file, hs, hm1', hm2']
    exact ⟨hv, by simp [StreamlitApp.parse_doc_to_dict, hv]⟩

/-- Witness for C4: a non-ZIP buffer, a package missing
word/document.xml, and a package missing [Content_Types].xml. -/
theorem claim_c4_witness :
    (StreamlitApp.validate_docx_file ⟨"a.docx".data, .badZip⟩ =
       (false, "File is not a valid ZIP/DOCX file".data) ∧
     (StreamlitApp.parse_doc_to_dict ⟨"a.docx".data, .badZip⟩ []).1 = none) ∧
    (StreamlitApp.validate_docx_file
       ⟨"b.docx".data, .goodZip ["[Content_Types].xml".data] []⟩ =
       (false, "Missing required file: word/document.xml".data) ∧
     (StreamlitApp.parse_doc_to_dict
       ⟨"b.docx".data, .goodZip ["[Content_Types].xml".data] []⟩ []).1 = none) ∧
    (StreamlitApp.validate_docx_file
       ⟨"c.docx".data, .goodZip ["word/document.xml".data] []⟩ =
       (false, "Missing required file: [Content_Types].xml".data) ∧
     (StreamlitApp.parse_doc_to_dict
       ⟨"c.docx".data, .goodZip ["word/document.xml".data] []⟩ []).1 = none) :=
  ⟨(claim_c4_validation ⟨"a.docx".data, .badZip⟩ []).1 rfl,
   (claim_c4_validation ⟨"b.docx".data, .goodZip ["[Content_Types].xml".data] []⟩
      []).2.1 _ _ rfl (by decide),
   (claim_c4_validation ⟨"c.docx".data, .goodZip ["word/document.xml".data] []⟩
      []).2.2 _ _ rfl (by decide) (by decide)⟩

/-- C5 counterexample: the batch-script parser successfully parses a
document, yet its Record metadata carries no non-empty-paragraph
counter — looking up "content_paragraphs" in the metadata of the
returned Record yields nothing. -/
theorem claim_c5_counterexample :
    (ConvertDocx.parse_doc_to_dict "doc.docx".data (some ["Name: x".data]) []).map
        (fun d => dictGet d.metadata "content_paragraphs".data) = some none := by
  decide

/-- C5 amended: only the interactive (streamlit) parser populates both
paragraph counters: total_paragraphs is the raw paragraph count
including blanks and content_paragraphs the number of non-blank lines
classified.  The batch-script parser populates total_paragraphs only,
and no non-empty-paragraph counter at all. -/
theorem claim_c5_paragraph_counters :
    (∀ (name now : List Char) (entries paras : List (List Char))
       (d : StreamlitApp.AppData) (msgs : List StreamlitApp.AppMsg),
      StreamlitApp.parse_doc_to_dict ⟨name, .goodZip entries paras⟩ now =
        (some d, msgs) →
      dictGet d.metadata "total_paragraphs".data = some (.nat paras.length) ∧
      dictGet d.metadata "content_paragraphs".data =
        some (.nat (nonBlankCount paras))) ∧
    (∀ (path now : List Char) (paras : List (List Char))
       (d : ConvertDocx.CliData),
      ConvertDocx.parse_doc_to_dict path (some paras) now = some d →
      dictGet d.metadata "total_paragraphs".data = some (.nat paras.length) ∧
      dictGet d.metadata "content_paragraphs".data = none) := by
  constructor
  · intro name now entries paras d msgs h
    simp only [StreamlitApp.parse_doc_to_dict] at h
    split at h
    · simp at h
    · cases hp : parseParas paras with
      | error e => rw [hp] at h; simp at h
      | ok p =>
          obtain ⟨content, cnt⟩ := p
          rw [hp] at h
          simp only [Prod.mk.injEq, Option.some.injEq] at h
          obtain ⟨hd, hm⟩ := h
          subst hd
          have hcnt : cnt = nonBlankCount paras := by
            simpa using parseParasAux_count paras [] 0 content cnt hp
          constructor
          · rw [dictGet_dictSet_ne _ _ _ _ (by decide)]
            simp only [dictGet]
            rw [if_neg (by decide), if_neg (by decide)]
            simp
          · rw [dictGet_dictSet_self, hcnt]
  · intro path now paras d h
    simp only [ConvertDocx.parse_doc_to_dict] at h
    split at h
    · simp at h
    · cases hp : parseParas paras with
      | error e => rw [hp] at h; simp at h
      | ok p =>
          obtain ⟨content, cnt⟩ := p
          rw [hp] at h
          simp only [Option.some.injEq] at h
          subst h
          constructor
          · simp only [dictGet]
            rw [if_neg (by decide), if_neg (by decide)]
            simp
          · simp only [dictGet]
            rw [if_neg (by decide), if_neg (by decide), if_neg (by decide)]

/-- Witness for C5's amended claim: a two-paragraph upload (one
non-blank) carries both counters; a one-paragraph disk document
carries only total_paragraphs. -/
theorem claim_c5_witness :
    (dictGet [("source_file".data, MetaVal.str "u.docx".data),
              ("converted_at".data, MetaVal.str []),
              ("total_paragraphs".data, MetaVal.nat 2),
              ("content_paragraphs".data, MetaVal.nat 1)]
        "total_paragraphs".data = some (.nat 2) ∧
     dictGet [("source_file".data, MetaVal.str "u.docx".data),
              ("converted_at".data, MetaVal.str []),
              ("total_paragraphs".data, MetaVal.nat 2),
              ("content_paragraphs".data, MetaVal.nat 1)]
        "content_paragraphs".data = some (.nat 1)) ∧
    (dictGet [("source_file".data, MetaVal.str "doc.docx".data),
              ("converted_at".data, MetaVal.str []),
              ("total_paragraphs".data, MetaVal.nat 1)]
        "total_paragraphs".data = some (.nat 1) ∧
     dictGet [("source_file".data, MetaVal.str "doc.docx".data),
              ("converted_at".data, MetaVal.str []),
              ("total_paragraphs".data, MetaVal.nat 1)]
        "content_paragraphs".data = none) := by
  constructor
  · have h := claim_c5_paragraph_counters.1 "u.docx".data []
      ["word/document.xml".data, "[Content_Types].xml".data]
      ["A: b".data, "".data]
      ⟨[("source_file".data, MetaVal.str "u.docx".data),
        ("converted_at".data, MetaVal.str []),
        ("total_paragraphs".data, MetaVal.nat 2),
        ("content_paragraphs".data, MetaVal.nat 1)],
       [("A".data, Value.str "b".data)]⟩ [] (by decide)
    exact ⟨h.1.trans (by decide), h.2.trans (by decide)⟩
  · have h := claim_c5_paragraph_counters.2 "doc.docx".data []
      ["K: v".data]
      ⟨[("source_file".data, MetaVal.str "doc.docx".data),
        ("converted_at".data, MetaVal.str []),
        ("total_paragraphs".data, MetaVal.nat 1)],
       [("K".data, Value.str "v".data)]⟩ (by decide)
    exact ⟨h.1.trans (by decide), h.2⟩

/-- C6 counterexample: with no destination supplied, the code derives
the output location with Python str.replace, which substitutes EVERY
occurrence of ".docx", not only the extension: converting the
successfully parsed source "report.docx.docx" returns
"report.json.json" rather than "report.docx.json". -/
theorem claim_c6_counterexample :
    (ConvertDocx.convert_single_file "report.docx.docx".data none
        (some []) []).1 = some "report.json.json".data ∧
    "report.json.json".data ≠ "report.docx.json".data := by
  decide

/-- C6 amended: with no destination supplied, the output location is
the source name with every occurrence of the substring ".docx"
replaced by ".json"; on parse success the JSON is written there and
that path is returned, and on parse failure null is returned and
nothing is written. -/
theorem claim_c6_output_derivation (input_path now : List Char)
    (doc : Option (List (List Char))) :
    (∀ data, ConvertDocx.parse_doc_to_dict input_path doc now = some data →
      ConvertDocx.convert_single_file input_path none doc now =
        (some (pyReplace ".docx".data ".json".data input_path),
         [(pyReplace ".docx".data ".json".data input_path, data)])) ∧
    (ConvertDocx.parse_doc_to_dict input_path doc now = none →
      ConvertDocx.convert_single_file input_path none doc now = (none, [])) := by
  constructor
  · intro data h
    simp [ConvertDocx.convert_single_file, h]
  · intro h
    simp [ConvertDocx.convert_single_file, h]

/-- Witness for C6's amended claim: a parseable source and an
unreadable one. -/
theorem claim_c6_witness :
    ConvertDocx.convert_single_file "a.docx".data none (some []) [] =
      (some (pyReplace ".docx".data ".json".data "a.docx".data),
       [(pyReplace ".docx".data ".json".data "a.docx".data,
         ⟨[("source_file".data, MetaVal.str "a.docx".data),
           ("converted_at".data, MetaVal.str []),
           ("total_paragraphs".data, MetaVal.nat 0)], []⟩)]) ∧
    ConvertDocx.convert_single_file "bad.docx".data none none [] = (none, []) :=
  ⟨(claim_c6_output_derivation "a.docx".data [] (some [])).1
     ⟨[("source_file".data, MetaVal.str "a.docx".data),
       ("converted_at".data, MetaVal.str []),
       ("total_paragraphs".data, MetaVal.nat 0)], []⟩ (by decide),
   (claim_c6_output_derivation "bad.docx".data [] none).2 (by decide)⟩

/-- C7: batch conversion processes exactly the files whose stored name
ends in ".docx" (no case normalization), each exactly once in walk
order — the batch result is a filterMap over the file list; every
visited file's output mirrors the input's relative directory, with the
filename's extension swapped to ".json"; and a file whose parse fails
leaves the conversion of all remaining files unchanged. -/
theorem claim_c7_batch_enumeration (files : List ConvertDocx.BatchFile)
    (now : List Char) :
    (ConvertDocx.convert_folder files now =
      (files.filterMap (fun f => (ConvertDocx.batchOutcome now f).map Prod.fst),
       files.filterMap (ConvertDocx.batchOutcome now))) ∧
    (∀ f : ConvertDocx.BatchFile, ConvertDocx.batchOutcome now f ≠ none →
      ".docx".data.isSuffixOf f.filename = true) ∧
    (∀ (f : ConvertDocx.BatchFile) (stem : List Char)
       (out : ConvertDocx.OutPath) (data : ConvertDocx.CliData),
      ConvertDocx.batchOutcome now f = some (out, data) →
      f.filename = stem ++ ".docx".data →
      stem.any (fun c => c ≠ '.') = true →
      out.relDir = f.relDir ∧ out.filename = stem ++ ".json".data) ∧
    (∀ (pre suf : List ConvertDocx.BatchFile) (bad : ConvertDocx.BatchFile),
      ConvertDocx.parse_doc_to_dict bad.filename bad.doc now = none →
      ConvertDocx.convert_folder (pre ++ bad :: suf) now =
        ConvertDocx.convert_folder (pre ++ suf) now) := by
  refine ⟨ConvertDocx.convert_folder_eq files now, ?_, ?_, ?_⟩
  · intro f h
    by_cases hs : ".docx".data.isSuffixOf f.filename = true
    · exact hs
    · exact absurd (by simp [ConvertDocx.batchOutcome, hs]) h
  · intro f stem out data h hf hstem
    simp only [ConvertDocx.batchOutcome] at h
    split at h
    · cases hp : ConvertDocx.parse_doc_to_dict f.filename f.doc now with
      | none => rw [hp] at h; cases h
      | some d =>
          rw [hp] at h
          simp only [Option.some.injEq, Prod.mk.injEq] at h
          obtain ⟨hout, _⟩ := h
          rw [← hout]
          refine ⟨rfl, ?_⟩
          rw [hf, splitext_stem_docx stem hstem]
    · cases h
  · intro pre suf bad h
    exact ConvertDocx.convert_folder_skip pre suf bad now
      (ConvertDocx.batchOutcome_none_of_parse_none now bad h)

/-- Witness for C7: a converted file under a subdirectory, and a batch
where one file fails to read. -/
theorem claim_c7_witness :
    ".docx".data.isSuffixOf "a.docx".data = true ∧
    ((⟨["sub".data], "a.json".data⟩ : ConvertDocx.OutPath).relDir =
       (⟨["sub".data], "a.docx".data, some []⟩ : ConvertDocx.BatchFile).relDir ∧
     (⟨["sub".data], "a.json".data⟩ : ConvertDocx.OutPath).filename =
       "a".data ++ ".json".data) ∧
    ConvertDocx.convert_folder ([] ++ ⟨[], "bad.docx".data, none⟩ :: []) [] =
      ConvertDocx.convert_folder ([] ++ []) [] :=
  ⟨(claim_c7_batch_enumeration [] []).2.1 ⟨["sub".data], "a.docx".data, some []⟩
     (by decide),
   (claim_c7_batch_enumeration [] []).2.2.1 ⟨["sub".data], "a.docx".data, some []⟩
     "a".data ⟨["sub".data], "a.json".data⟩
     ⟨[("source_file".data, MetaVal.str "a.docx".data),
       ("converted_at".data, MetaVal.str []),
       ("total_paragraphs".data, MetaVal.nat 0)], []⟩
     (by decide) (by decide) (by decide),
   (claim_c7_batch_enumeration [] []).2.2.2 [] [] ⟨[], "bad.docx".data, none⟩
     (by decide)⟩

/-- C8 counterexample: a batch containing the unreadable document
"bad.docx" returns ([], []) — the batch return value names no failed
source anywhere, so the failed document is not added to any failures
list of the result. -/
theorem claim_c8_counterexample :
    ConvertDocx.convert_folder [⟨[], "bad.docx".data, none⟩] [] = ([], []) := by
  decide

/-- C8 amended: convert_folder returns only the ordered successes (the
written output paths, plus the writes themselves); a document that
fails is skipped without aborting the batch, but the batch result
carries no failures list and no end-of-batch failure report — each
failure is only printed when it occurs inside parse_doc_to_dict. -/
theorem claim_c8_successes_only (files : List ConvertDocx.BatchFile)
    (now : List Char) :
    (ConvertDocx.convert_folder files now).1 =
      files.filterMap (fun f => (ConvertDocx.batchOutcome now f).map Prod.fst) ∧
    (∀ (pre suf : List ConvertDocx.BatchFile) (bad : ConvertDocx.BatchFile),
      ConvertDocx.batchOutcome now bad = none →
      ConvertDocx.convert_folder (pre ++ bad :: suf) now =
        ConvertDocx.convert_folder (pre ++ suf) now) :=
  ⟨by rw [ConvertDocx.convert_folder_eq],
   fun pre suf bad h => ConvertDocx.convert_folder_skip pre suf bad now h⟩

/-- Witness for C8's amended claim: a one-success batch is unchanged by
inserting a failing document. -/
theorem claim_c8_witness :
    ConvertDocx.convert_folder
        ([⟨[], "ok.docx".data, some []⟩] ++ ⟨[], "nope.docx".data, none⟩ :: []) [] =
      ConvertDocx.convert_folder ([⟨[], "ok.docx".data, some []⟩] ++ []) [] :=
  (claim_c8_successes_only [] []).2 [⟨[], "ok.docx".data, some []⟩] []
    ⟨[], "nope.docx".data, none⟩ (by decide)

/-- C9: for a validated upload that parses successfully, the Record's
content is empty exactly when the document had no non-blank paragraph
(every classified non-blank line adds a key-value or free_text entry);
and a document with zero non-blank paragraphs still produces a valid
Record with empty content, signalled with the empty-content warning
rather than a failure. -/
theorem claim_c9_empty_content (name now : List Char)
    (entries paras : List (List Char))
    (h1 : entries.contains "word/document.xml".data = true)
    (h2 : entries.contains "[Content_Types].xml".data = true) :
    (∀ (d : StreamlitApp.AppData) (msgs : List StreamlitApp.AppMsg),
      StreamlitApp.parse_doc_to_dict ⟨name, .goodZip entries paras⟩ now =
        (some d, msgs) →
      (d.content = [] ↔ ∀ p ∈ paras, pyStrip p = [])) ∧
    ((∀ p ∈ paras, pyStrip p = []) →
      StreamlitApp.parse_doc_to_dict ⟨name, .goodZip entries paras⟩ now =
        (some ⟨dictSet
            [("source_file".data, MetaVal.str name),
             ("converted_at".data, MetaVal.str now),
             ("total_paragraphs".data, MetaVal.nat paras.length)]
            "content_paragraphs".data (MetaVal.nat 0), []⟩,
         [.emptyWarning name])) := by
  have hv : StreamlitApp.validate_docx_file ⟨name, .goodZip entries paras⟩ =
      (true, "Valid DOCX file".data) := by
    have h1' : "word/document.xml".data ∈ entries := by simp at h1; exact h1
    have h2' : "[Content_Types].xml".data ∈ entries := by simp at h2; exact h2
    simp [StreamlitApp.validate_docx_file, h1', h2']
  constructor
  · intro d msgs h
    simp only [StreamlitApp.parse_doc_to_dict, hv] at h
    simp only [Bool.true_eq_false, if_false] at h
    cases hp : parseParas paras with
    | error e => rw [hp] at h; simp at h
    | ok p =>
        obtain ⟨content, cnt⟩ := p
        rw [hp] at h
        simp only [Prod.mk.injEq, Option.some.injEq] at h
        obtain ⟨hd, _⟩ := h
        subst hd
        simpa using parseParasAux_empty_iff paras [] 0 content cnt hp
  · intro hall
    have hp : parseParas paras = .ok ([], 0) :=
      parseParasAux_all_blank paras [] 0 hall
    simp only [StreamlitApp.parse_doc_to_dict, hv]
    simp only [Bool.true_eq_false, if_false]
    rw [hp]
    rfl

/-- Witness for C9: a two-paragraph document of blanks produces a
Record with empty content plus the warning, and the emptiness
equivalence holds at it. -/
theorem claim_c9_witness :
    StreamlitApp.parse_doc_to_dict
        ⟨"e.docx".data,
         .goodZip ["word/document.xml".data, "[Content_Types].xml".data]
           ["".data, "  ".data]⟩ [] =
      (some ⟨[("source_file".data, MetaVal.str "e.docx".data),
              ("converted_at".data, MetaVal.str []),
              ("total_paragraphs".data, MetaVal.nat 2),
              ("content_paragraphs".data, MetaVal.nat 0)], []⟩,
       [.emptyWarning "e.docx".data]) ∧
    (⟨[("source_file".data, MetaVal.str "e.docx".data),
       ("converted_at".data, MetaVal.str []),
       ("total_paragraphs".data, MetaVal.nat 2),
       ("content_paragraphs".data, MetaVal.nat 0)], []⟩ :
      StreamlitApp.AppData).content = [] := by
  have h := (claim_c9_empty_content "e.docx".data []
    ["word/document.xml".data, "[Content_Types].xml".data]
    ["".data, "  ".data] (by decide) (by decide)).2 (by decide)
  exact ⟨h.trans (by decide), rfl⟩

/-- C10: a key-value line whose key is the reserved word "free_text"
("free_text: note") followed later by a colon-free non-blank line
makes the loop raise (appending to the str stored under
content["free_text"]); the per-document error handler catches it and
the entire document's conversion fails with no Record — in both the
batch script and the streamlit app. -/
theorem claim_c10_reserved_free_text_key (now : List Char) :
    parseParas ["free_text: note".data, "some plain line".data] =
      .error .attrError ∧
    ConvertDocx.parse_doc_to_dict "doc.docx".data
      (some ["free_text: note".data, "some plain line".data]) now = none ∧
    StreamlitApp.parse_doc_to_dict
      ⟨"doc.docx".data,
       .goodZip ["word/document.xml".data, "[Content_Types].xml".data]
         ["free_text: note".data, "some plain line".data]⟩ now =
      (none, [.processingError "doc.docx".data]) := by
  refine ⟨by decide, ?_, ?_⟩ <;> rfl
